import Mathlib

/-!
# Shallow embedding of the Sharp memory-LCD display driver

This file embeds the driver in `src/display/display.rs` of
`esp-rs-shrap-memory`: a framebuffer of `height` rows of bytes, a VCOM
polarity bit, and three transmission operations (`clear_display`,
`refresh`, `refresh_line`) plus the local mutations `set_pixel` and
`clear_buffer`.

Modelling conventions:
* Machine integers (`u8`, `u16`) become `Nat`; wrapping arithmetic is
  written with an explicit `% 256` exactly where Rust release-mode
  overflow occurs (`num + 1` on the `u8` loop counter, `line_num + 1`).
* The SPI transport (`SpiDeviceDriver::write`) is abstracted as a
  function `wr : List Nat → Bool` that receives the exact byte frame and
  reports success or failure; peripheral configuration is out of scope.
* A Rust `anyhow::Result` together with the possibility of an
  index-out-of-bounds panic becomes the inductive `TxResult`; an
  operation that panics performs no mutation (the panicking index
  access happens before any write to the buffer).
* The unbounded `while` loop in `refresh` is modelled with explicit
  fuel: `none` means the loop did not finish within the given fuel, and
  a result holding for every fuel characterises (non-)termination.
-/

set_option autoImplicit false

namespace SharpMem

/-- `SHARPMEM_CMD_WRITE_LINE : u8 = 0b00000001`. -/
def SHARPMEM_CMD_WRITE_LINE : Nat := 1

/-- `SHARPMEM_CMD_VCOM : u8 = 0b00000010`. -/
def SHARPMEM_CMD_VCOM : Nat := 2

/-- `SHARPMEM_CMD_CLEAR_SCREEN : u8 = 0b00000100`. -/
def SHARPMEM_CMD_CLEAR_SCREEN : Nat := 4

/-- `SET: [u8; 8] = [1, 2, 4, 8, 16, 32, 64, 128]`. -/
def SET : List Nat := [1, 2, 4, 8, 16, 32, 64, 128]

/-- `CLR: [u8; 8] = [!1, !2, !4, !8, !16, !32, !64, !128]` (bitwise not on `u8`). -/
def CLR : List Nat := [254, 253, 251, 247, 239, 223, 191, 127]

/-- The driver state `DisplayDriver`: framebuffer rows, panel dimensions,
the VCOM polarity byte and the cached `bytes_per_line : u8`.  The SPI
device handle is abstracted away (transmissions take the transport as a
`wr` argument instead). -/
structure Driver where
  buffer : List (List Nat)
  width : Nat
  height : Nat
  vcom : Nat
  bytes_per_line : Nat
  deriving Repr, DecidableEq

/-- Result of a driver operation: `Ok(())`, a transport write error, the
driver's own out-of-bounds `anyhow!` error, or a Rust panic (slice index
out of bounds / arithmetic overflow). -/
inductive TxResult where
  | ok
  | transportErr
  | boundsErr
  | panicked
  deriving Repr, DecidableEq

/-- `new(freq, sclk, sdo, cs, spi, width, height)` with the SPI setup
elided: buffer of `height` rows of `width / 8` bytes all `0xFF`, vcom
`0x00`, and `bytes_per_line = (width / 8) as u8` (note the `u8` cast
truncates modulo 256). -/
def new (width height : Nat) : Driver :=
  { buffer := List.replicate height (List.replicate (width / 8) 255)
    width := width
    height := height
    vcom := 0
    bytes_per_line := (width / 8) % 256 }

/-- The pure state update of `toggle_vcom`: `0x00` if vcom was nonzero,
else `SHARPMEM_CMD_VCOM`. -/
def vcomToggle (v : Nat) : Nat :=
  if v ≠ 0 then 0 else SHARPMEM_CMD_VCOM

/-- `toggle_vcom(&mut self)`. -/
def toggle_vcom (d : Driver) : Driver :=
  { d with vcom := vcomToggle d.vcom }

/-- `clear_display`: build `[vcom | SHARPMEM_CMD_CLEAR_SCREEN, 0]`,
toggle vcom, then write the frame.  The toggle happens before the write,
so the returned state does not depend on the write's outcome. -/
def clear_display (d : Driver) (wr : List Nat → Bool) : TxResult × Driver :=
  let command : List Nat := [d.vcom ||| SHARPMEM_CMD_CLEAR_SCREEN, 0]
  let d' := toggle_vcom d
  ((if wr command then .ok else .transportErr), d')

/-- `clear_buffer`: `self.buffer.fill(vec![0xFF; self.bytes_per_line as usize])`.
Every existing row is replaced; the number of rows is unchanged. -/
def clear_buffer (d : Driver) : Driver :=
  { d with buffer :=
      List.replicate d.buffer.length (List.replicate d.bytes_per_line 255) }

/-- Outcome of the `while` loop inside `refresh`: either the assembled
command bytes, or a panic from `self.buffer[num as usize]`. -/
inductive LoopOut where
  | out (cmds : List Nat)
  | panicked
  deriving Repr, DecidableEq

/-- The `while (num as u16) < self.height` loop of `refresh`, with
explicit fuel.  `num` is a `u8`, so the increment wraps modulo 256; the
line-address byte pushed is `num + 1` on `u8`, also modulo 256.  `none`
means the loop did not finish within `fuel` iterations. -/
def refreshLoop (buffer : List (List Nat)) (height : Nat) :
    Nat → Nat → List Nat → Option LoopOut
  | 0, _, _ => none
  | fuel + 1, num, acc =>
    if num < height then
      match buffer[num]? with
      | none => some .panicked
      | some row =>
          refreshLoop buffer height fuel ((num + 1) % 256)
            (acc ++ ((num + 1) % 256) :: (row ++ [0]))
    else some (.out acc)

/-- `refresh`: command byte `vcom | SHARPMEM_CMD_WRITE_LINE`, then the
loop over all lines, a final `0x00`, a vcom toggle, and one transport
write.  `none` propagates a loop that did not finish within `fuel`. -/
def refresh (d : Driver) (wr : List Nat → Bool) (fuel : Nat) :
    Option (TxResult × Driver) :=
  let command : Nat := d.vcom ||| SHARPMEM_CMD_WRITE_LINE
  match refreshLoop d.buffer d.height fuel 0 [command] with
  | none => none
  | some .panicked => some (.panicked, d)
  | some (.out cmds) =>
      let cmds := cmds ++ [0]
      let d' := toggle_vcom d
      some ((if wr cmds then .ok else .transportErr), d')

/-- `refresh_line(line_num)`: reject `line_num > height` with an
`anyhow!` error, otherwise build
`[vcom | WRITE_LINE, line_num + 1] ++ row ++ [0, 0]` from
`self.buffer[line_num as usize]` (a panic when `line_num` is not a valid
row index) and write it.  Note: no `toggle_vcom` call occurs in the
source of this operation. -/
def refresh_line (d : Driver) (line_num : Nat) (wr : List Nat → Bool) :
    TxResult × Driver :=
  if line_num > d.height then (.boundsErr, d)
  else
    match d.buffer[line_num]? with
    | none => (.panicked, d)
    | some row =>
        let cmds : List Nat :=
          (d.vcom ||| SHARPMEM_CMD_WRITE_LINE) :: ((line_num + 1) % 256)
            :: (row ++ [0, 0])
        ((if wr cmds then .ok else .transportErr), d)

/-- `set_pixel(x, y, value)`: bounds check `x >= width || y >= height`,
then `left = x % 8`, `whole = x - left`, and an in-place update of
`self.buffer[y as usize][whole as usize]` with the `SET`/`CLR` mask
(the source uses `whole`, the pixel index rounded down to a multiple of
8, as the byte index).  An out-of-range `whole` is a Rust panic. -/
def set_pixel (d : Driver) (x y : Nat) (value : Bool) : TxResult × Driver :=
  if x ≥ d.width ∨ y ≥ d.height then (.boundsErr, d)
  else
    let left := x % 8
    let whole := x - left
    match d.buffer[y]? with
    | none => (.panicked, d)
    | some row =>
        match row[whole]? with
        | none => (.panicked, d)
        | some b =>
            let b' := if value then b ||| SET.getD left 0 else b &&& CLR.getD left 0
            (.ok, { d with buffer := d.buffer.set y (row.set whole b') })

/-- Modelled from the spec: the repository has no pixel-read operation.
Per the spec's data model, pixel `(x, y)` is bit `x mod 8` of byte
`x / 8` of row `y` (bit 0 = leftmost pixel of each 8-pixel byte group),
and a 1 bit is the state that `set_pixel(_, _, true)` establishes. -/
def readPixel (d : Driver) (x y : Nat) : Option Bool :=
  (d.buffer[y]?).bind fun row => (row[x / 8]?).map fun b => b.testBit (x % 8)

/-- One caller-visible operation of the driver, for reasoning about
arbitrary call sequences.  `doRefresh` carries the fuel bound used to
run its loop. -/
inductive Op where
  | setPixel (x y : Nat) (v : Bool)
  | clearBuffer
  | clearDisplay
  | doRefresh (fuel : Nat)
  | refreshLine (n : Nat)
  deriving Repr, DecidableEq

/-- The state after one operation.  A `refresh` whose loop does not
finish never reaches its vcom toggle or write, so the pre-state is the
last state that exists. -/
def step (wr : List Nat → Bool) (d : Driver) : Op → Driver
  | .setPixel x y v => (set_pixel d x y v).2
  | .clearBuffer => clear_buffer d
  | .clearDisplay => (clear_display d wr).2
  | .doRefresh fuel =>
      match refresh d wr fuel with
      | none => d
      | some (_, d') => d'
  | .refreshLine n => (refresh_line d n wr).2

/-- The state after a sequence of operations, first element first. -/
def run (wr : List Nat → Bool) (d : Driver) : List Op → Driver
  | [] => d
  | op :: ops => run wr (step wr d op) ops

/-- Number of `clear_display` and `refresh` calls in a sequence (the
operations whose source contains a `toggle_vcom` call). -/
def togglingCalls : List Op → Nat
  | [] => 0
  | .clearDisplay :: ops => togglingCalls ops + 1
  | .doRefresh _ :: ops => togglingCalls ops + 1
  | _ :: ops => togglingCalls ops

/-- The full-refresh frame as the spec describes it: command byte
`vcom OR WRITE_LINE_FLAG`, then for each row the 1-based line address,
the raw row bytes and a `0x00`, then a final `0x00`. -/
def specLineBlocks (buffer : List (List Nat)) : Nat → Nat → List Nat
  | _, 0 => []
  | num, k + 1 =>
      (num + 1) :: (buffer.getD num [] ++ [0]) ++ specLineBlocks buffer (num + 1) k

/-- The whole spec-side `refresh` frame for driver state `d`. -/
def specFrame (d : Driver) : List Nat :=
  (d.vcom ||| SHARPMEM_CMD_WRITE_LINE) :: specLineBlocks d.buffer 0 d.height ++ [0]

/-- `refresh` diverges on `d`: no amount of fuel makes it return. -/
def refreshDiverges (d : Driver) (wr : List Nat → Bool) : Prop :=
  ∀ fuel, refresh d wr fuel = none

/-- A transport that always reports success. -/
def wrOk : List Nat → Bool := fun _ => true

/-- A transport that reports success exactly when the frame it receives
is the expected byte sequence. -/
def wrExpect (expected : List Nat) : List Nat → Bool := fun frame => frame == expected

/-! ### Helper lemmas -/

theorem vcomToggle_ne {v : Nat} (hv : v = 0 ∨ v = 2) : vcomToggle v ≠ v := by
  rcases hv with h | h <;> subst h <;> decide

theorem vcomToggle_mem {v : Nat} (hv : v = 0 ∨ v = 2) :
    vcomToggle v = 0 ∨ vcomToggle v = 2 := by
  rcases hv with h | h <;> subst h <;> decide

theorem vcomToggle_toggle {v : Nat} (hv : v = 0 ∨ v = 2) :
    vcomToggle (vcomToggle v) = v := by
  rcases hv with h | h <;> subst h <;> decide

/-- The only field `toggle_vcom` touches is `vcom`. -/
theorem toggle_vcom_fields (d : Driver) :
    (toggle_vcom d).buffer = d.buffer ∧ (toggle_vcom d).width = d.width ∧
      (toggle_vcom d).height = d.height ∧
      (toggle_vcom d).bytes_per_line = d.bytes_per_line := by
  exact ⟨rfl, rfl, rfl, rfl⟩

/-- `refresh_line` returns the driver unchanged in every branch: the
source contains no `toggle_vcom` call and no buffer mutation. -/
theorem refresh_line_state (d : Driver) (line_num : Nat) (wr : List Nat → Bool) :
    (refresh_line d line_num wr).2 = d := by
  unfold refresh_line
  split
  · rfl
  · split
    · rfl
    · rfl

theorem clear_display_state (d : Driver) (wr : List Nat → Bool) :
    (clear_display d wr).2 = toggle_vcom d := rfl

theorem set_pixel_fields (d : Driver) (x y : Nat) (v : Bool) :
    (set_pixel d x y v).2.vcom = d.vcom ∧
      (set_pixel d x y v).2.width = d.width ∧
      (set_pixel d x y v).2.height = d.height ∧
      (set_pixel d x y v).2.bytes_per_line = d.bytes_per_line ∧
      (set_pixel d x y v).2.buffer.length = d.buffer.length := by
  unfold set_pixel
  split
  · exact ⟨rfl, rfl, rfl, rfl, rfl⟩
  · rcases h1 : d.buffer[y]? with _ | row
    · simp [h1]
    · rcases h2 : row[x - x % 8]? with _ | b
      · simp [h1, h2]
      · simp [h1, h2]

/-- `set_pixel` preserves the length of every row: it either leaves the
buffer alone or replaces one row by `row.set _ _`. -/
theorem set_pixel_row_lengths (d : Driver) (x y : Nat) (v : Bool) (L : Nat)
    (h : ∀ row ∈ d.buffer, row.length = L) :
    ∀ row ∈ (set_pixel d x y v).2.buffer, row.length = L := by
  unfold set_pixel
  split
  · exact h
  · rcases h1 : d.buffer[y]? with _ | row
    · simp only [h1]
      exact h
    · rcases h2 : row[x - x % 8]? with _ | b
      · simp only [h1, h2]
        exact h
      · simp only [h1, h2]
        intro r hr
        rcases List.mem_or_eq_of_mem_set hr with hmem | heq
        · exact h r hmem
        · subst heq
          rw [List.length_set]
          exact h row (List.getElem?_mem h1)

/-- The possible results of `refresh`: fuel ran out, a panic (state
unchanged), or a completed transmission (state `toggle_vcom d`). -/
theorem refresh_state (d : Driver) (wr : List Nat → Bool) (fuel : Nat) :
    refresh d wr fuel = none ∨
      (∃ r, refresh d wr fuel = some (r, d)) ∨
      (∃ r, refresh d wr fuel = some (r, toggle_vcom d)) := by
  rcases hres : refreshLoop d.buffer d.height fuel 0 [d.vcom ||| SHARPMEM_CMD_WRITE_LINE]
    with _ | (cmds | _)
  · exact Or.inl (by simp [refresh, hres])
  · exact Or.inr (Or.inr ⟨(if wr (cmds ++ [0]) then TxResult.ok else TxResult.transportErr),
      by simp [refresh, hres]⟩)
  · exact Or.inr (Or.inl ⟨TxResult.panicked, by simp [refresh, hres]⟩)

/-- Every operation preserves `width`, `height`, `bytes_per_line` and
the number of rows of the framebuffer. -/
theorem step_fields (wr : List Nat → Bool) (d : Driver) (op : Op) :
    (step wr d op).width = d.width ∧ (step wr d op).height = d.height ∧
      (step wr d op).bytes_per_line = d.bytes_per_line ∧
      (step wr d op).buffer.length = d.buffer.length := by
  cases op with
  | setPixel x y v =>
      obtain ⟨_, h2, h3, h4, h5⟩ := set_pixel_fields d x y v
      exact ⟨h2, h3, h4, h5⟩
  | clearBuffer => simp [step, clear_buffer]
  | clearDisplay => simp [step, clear_display, toggle_vcom]
  | doRefresh fuel =>
      rcases refresh_state d wr fuel with h | ⟨r, h⟩ | ⟨r, h⟩ <;> simp [step, h, toggle_vcom]
  | refreshLine n => simp [step, refresh_line_state]

/-- Termination of the refresh loop when the remaining line count fits
below the `u8` wrap-around: with `height ≤ 255` the counter never wraps
and the loop emits one line block per remaining row. -/
theorem refreshLoop_out (buffer : List (List Nat)) (height : Nat)
    (h255 : height ≤ 255) (hlen : height ≤ buffer.length) :
    ∀ k fuel num acc, num + k = height → k < fuel →
      refreshLoop buffer height fuel num acc =
        some (.out (acc ++ specLineBlocks buffer num k)) := by
  intro k
  induction k with
  | zero =>
      intro fuel num acc hnum hfuel
      match fuel, hfuel with
      | fuel + 1, _ =>
        simp only [refreshLoop]
        rw [if_neg (by omega)]
        simp [specLineBlocks]
  | succ k ih =>
      intro fuel num acc hnum hfuel
      match fuel, hfuel with
      | fuel + 1, hfuel =>
        have hlt : num < buffer.length := by omega
        have hmod : (num + 1) % 256 = num + 1 := Nat.mod_eq_of_lt (by omega)
        simp only [refreshLoop]
        rw [if_pos (by omega), List.getElem?_eq_getElem hlt, hmod]
        show refreshLoop buffer height fuel (num + 1)
            (acc ++ (num + 1) :: (buffer[num] ++ [0])) = _
        rw [ih fuel (num + 1) _ (by omega) (by omega)]
        simp [specLineBlocks, List.getD_eq_getElem?_getD,
          List.getElem?_eq_getElem hlt, List.append_assoc]

/-- Divergence of the refresh loop: when `height` exceeds 255 the `u8`
counter wraps around modulo 256 and the guard `num < height` never
becomes false, so no fuel bound suffices. -/
theorem refreshLoop_none (buffer : List (List Nat)) (height : Nat)
    (hh : 255 < height) (hlen : height ≤ buffer.length) :
    ∀ fuel num acc, num < 256 → refreshLoop buffer height fuel num acc = none := by
  intro fuel
  induction fuel with
  | zero => intro num acc _; rfl
  | succ fuel ih =>
      intro num acc hnum
      have hlt : num < buffer.length := by omega
      simp only [refreshLoop]
      rw [if_pos (by omega), List.getElem?_eq_getElem hlt]
      exact ih _ _ (Nat.mod_lt _ (by omega))

/-- `refresh` in the terminating regime: it performs one transport write
of exactly the spec frame and toggles vcom once. -/
theorem refresh_complete (d : Driver) (wr : List Nat → Bool) (fuel : Nat)
    (h255 : d.height ≤ 255) (hlen : d.height ≤ d.buffer.length)
    (hfuel : d.height < fuel) :
    refresh d wr fuel =
      some ((if wr (specFrame d) then TxResult.ok else TxResult.transportErr),
        toggle_vcom d) := by
  have h := refreshLoop_out d.buffer d.height h255 hlen d.height fuel 0
    [d.vcom ||| SHARPMEM_CMD_WRITE_LINE] (by omega) hfuel
  simp only [refresh, h]
  simp [specFrame]

/-- Rows and their lengths after one step: every operation either keeps
the buffer, replaces one row by a same-length update (`set_pixel`), or
rewrites all rows to `bytes_per_line` bytes (`clear_buffer`). -/
theorem step_row_lengths (wr : List Nat → Bool) (d : Driver) (op : Op) (L : Nat)
    (hb : d.bytes_per_line = L) (h : ∀ row ∈ d.buffer, row.length = L) :
    ∀ row ∈ (step wr d op).buffer, row.length = L := by
  cases op with
  | setPixel x y v => exact set_pixel_row_lengths d x y v L h
  | clearBuffer =>
      intro row hrow
      simp only [step, clear_buffer, List.mem_replicate] at hrow
      rw [hrow.2, List.length_replicate, hb]
  | clearDisplay => exact h
  | doRefresh f =>
      rcases refresh_state d wr f with hr | ⟨r, hr⟩ | ⟨r, hr⟩ <;>
        simp only [step, hr] <;> exact h
  | refreshLine n =>
      have hst : step wr d (Op.refreshLine n) = d := refresh_line_state d n wr
      rw [hst]
      exact h

/-- Row lengths are invariant under arbitrary call sequences. -/
theorem run_row_lengths (wr : List Nat → Bool) (ops : List Op) :
    ∀ (d : Driver) (L : Nat), d.bytes_per_line = L →
      (∀ row ∈ d.buffer, row.length = L) →
      ∀ row ∈ (run wr d ops).buffer, row.length = L := by
  induction ops with
  | nil => intro d L _ h; exact h
  | cons op ops ih =>
      intro d L hb h
      exact ih (step wr d op) L (by rw [(step_fields wr d op).2.2.1, hb])
        (step_row_lengths wr d op L hb h)

/-- The vcom value after a sequence of operations is the initial value
toggled once per `clear_display`/`refresh` call, provided every refresh
has enough fuel to complete. -/
theorem run_vcom_aux (wr : List Nat → Bool) (ops : List Op) :
    ∀ (d : Driver), (d.vcom = 0 ∨ d.vcom = 2) → d.buffer.length = d.height →
      d.height ≤ 255 → (∀ f, Op.doRefresh f ∈ ops → d.height < f) →
      (run wr d ops).vcom =
        if togglingCalls ops % 2 = 0 then d.vcom else vcomToggle d.vcom := by
  induction ops with
  | nil => intro d _ _ _ _; simp [run, togglingCalls]
  | cons op ops ih =>
      intro d hv hlen h255 hfuel
      obtain ⟨hw, hh, hb, hl⟩ := step_fields wr d op
      have hlen' : (step wr d op).buffer.length = (step wr d op).height := by
        rw [hl, hh, hlen]
      have h255' : (step wr d op).height ≤ 255 := by rw [hh]; exact h255
      have hfuel' : ∀ f, Op.doRefresh f ∈ ops → (step wr d op).height < f := by
        intro f hf
        rw [hh]
        exact hfuel f (List.mem_cons_of_mem _ hf)
      have hrun : run wr d (op :: ops) = run wr (step wr d op) ops := rfl
      cases op with
      | setPixel x y v =>
          have hvc : (step wr d (Op.setPixel x y v)).vcom = d.vcom :=
            (set_pixel_fields d x y v).1
          rw [hrun, ih _ (by rw [hvc]; exact hv) hlen' h255' hfuel', hvc]
          simp only [togglingCalls]
      | clearBuffer =>
          have hvc : (step wr d Op.clearBuffer).vcom = d.vcom := rfl
          rw [hrun, ih _ (by rw [hvc]; exact hv) hlen' h255' hfuel', hvc]
          simp only [togglingCalls]
      | refreshLine n =>
          have hvc : (step wr d (Op.refreshLine n)).vcom = d.vcom := by
            have hst : step wr d (Op.refreshLine n) = d := refresh_line_state d n wr
            rw [hst]
          rw [hrun, ih _ (by rw [hvc]; exact hv) hlen' h255' hfuel', hvc]
          simp only [togglingCalls]
      | clearDisplay =>
          have hvc : (step wr d Op.clearDisplay).vcom = vcomToggle d.vcom := rfl
          rw [hrun, ih _ (by rw [hvc]; exact vcomToggle_mem hv) hlen' h255' hfuel', hvc]
          rw [vcomToggle_toggle hv]
          simp only [togglingCalls]
          by_cases hp : togglingCalls ops % 2 = 0
          · rw [if_pos hp, if_neg (by omega)]
          · rw [if_neg hp, if_pos (by omega)]
      | doRefresh f =>
          have hstep : step wr d (Op.doRefresh f) = toggle_vcom d := by
            have hr := refresh_complete d wr f h255 (by omega) (hfuel f (List.mem_cons_self _ _))
            simp [step, hr]
          have hvc : (step wr d (Op.doRefresh f)).vcom = vcomToggle d.vcom := by
            rw [hstep]; rfl
          rw [hrun, ih _ (by rw [hvc]; exact vcomToggle_mem hv) hlen' h255' hfuel', hvc]
          rw [vcomToggle_toggle hv]
          simp only [togglingCalls]
          by_cases hp : togglingCalls ops % 2 = 0
          · rw [if_pos hp, if_neg (by omega)]
          · rw [if_neg hp, if_pos (by omega)]

/-! ### Claim theorems -/

/-- The width=8, height=2 example panel of the spec, with row 0 = 0x00
and row 1 = 0xFF. -/
def exDriver : Driver :=
  { buffer := [[0], [255]], width := 8, height := 2, vcom := 0, bytes_per_line := 1 }

/-- A demo call sequence touching every operation. -/
def demoOps : List Op :=
  [Op.setPixel 3 2 true, Op.clearBuffer, Op.clearDisplay, Op.refreshLine 1,
    Op.doRefresh 20]

/-- Claim C1, counterexample: one single in-bounds `refresh_line` call
succeeds (the transport write happens) yet leaves the polarity bit equal
to its initial value, refuting "each single call to any of the three
transmission operations flips the polarity state exactly once". -/
theorem refresh_line_single_call_keeps_vcom :
    (refresh_line (new 8 2) 0 wrOk).1 = TxResult.ok ∧
      (refresh_line (new 8 2) 0 wrOk).2.vcom = (new 8 2).vcom := by
  decide

/-- Claim C1, amended: `clear_display` and (completed) `refresh` calls
each flip the polarity exactly once, while `refresh_line` never changes
it; after any call sequence the polarity bit differs from its initial
value exactly when the number of `clear_display` plus `refresh` calls is
odd. -/
theorem vcom_parity_of_run (wr : List Nat → Bool) (ops : List Op) (d : Driver)
    (hv : d.vcom = 0 ∨ d.vcom = 2) (hlen : d.buffer.length = d.height)
    (h255 : d.height ≤ 255) (hfuel : ∀ f, Op.doRefresh f ∈ ops → d.height < f) :
    ((run wr d ops).vcom ≠ d.vcom ↔ togglingCalls ops % 2 = 1) ∧
      ∀ n wr', (refresh_line d n wr').2.vcom = d.vcom := by
  constructor
  · have h := run_vcom_aux wr ops d hv hlen h255 hfuel
    by_cases hp : togglingCalls ops % 2 = 0
    · rw [h, if_pos hp]
      constructor
      · intro hne
        exact absurd rfl hne
      · intro h1
        omega
    · rw [h, if_neg hp]
      constructor
      · intro _
        omega
      · intro _
        exact vcomToggle_ne hv
  · intro n wr'
    rw [refresh_line_state]

/-- Claim C1, witness: a concrete sequence with two toggling calls (one
`clear_display`, one completed `refresh`) and one `refresh_line` leaves
the polarity at its initial value. -/
theorem vcom_parity_of_run_witness :
    (run wrOk (new 8 2) [Op.clearDisplay, Op.refreshLine 0, Op.doRefresh 3]).vcom =
      (new 8 2).vcom := by
  have h := (vcom_parity_of_run wrOk [Op.clearDisplay, Op.refreshLine 0, Op.doRefresh 3]
    (new 8 2) (Or.inl rfl) (by decide) (by decide) ?hf).1
  · by_contra hne
    have := h.1 hne
    simp [togglingCalls] at this
  · intro f hf
    simp only [List.mem_cons, List.not_mem_nil, or_false] at hf
    rcases hf with hf | hf | hf
    · cases hf
    · cases hf
    · cases hf
      decide

/-- Claim C2: the code is wrong.  `set_pixel` uses `whole = x - x % 8`
(the pixel index rounded down) as the byte index, rather than `x / 8`.
On a 72×8 panel, `set_pixel(8, 0, false)` succeeds but clears bit 0 of
byte 8 (pixels 64..71) instead of byte 1, so the pixel at `(8, 0)` still
reads as the set state, refuting the claim for every `width ≥ 16`. -/
theorem set_pixel_misses_target_byte :
    (set_pixel (new 72 8) 8 0 false).1 = TxResult.ok ∧
      readPixel (set_pixel (new 72 8) 8 0 false).2 8 0 = some true ∧
      ((set_pixel (new 72 8) 8 0 false).2.buffer.getD 0 []).getD 8 0 = 254 := by
  decide

/-- Claim C3: the code is wrong.  The byte index `whole = x - x % 8` is
the byte-aligned PIXEL index, not a byte index: for `width = 16`,
`x = 8 < width` gives `whole = 8`, which is not below
`bytes_per_line = 2`, and the row access panics. -/
theorem set_pixel_byte_index_out_of_bounds :
    8 - 8 % 8 = 8 ∧ ¬(8 - 8 % 8 < (new 16 8).bytes_per_line) ∧
      set_pixel (new 16 8) 8 0 true = (TxResult.panicked, new 16 8) := by
  decide

/-- Claim C4, counterexample: on a driver with `height = 256` rows,
`refresh` never performs any transport write — the 8-bit loop counter
wraps and the loop never exits — refuting the claim's quantification
over every framebuffer. -/
theorem refresh_diverges_at_height_256 : refreshDiverges (new 8 256) wrOk := by
  intro fuel
  have hh : (255 : Nat) < (new 8 256).height := by norm_num [new]
  have hl : (new 8 256).height ≤ (new 8 256).buffer.length := by
    show (256 : Nat) ≤ (List.replicate 256 (List.replicate (8 / 8) 255)).length
    rw [List.length_replicate]
  have h := refreshLoop_none (new 8 256).buffer (new 8 256).height hh hl fuel 0
    [(new 8 256).vcom ||| SHARPMEM_CMD_WRITE_LINE] (by omega)
  simp only [refresh, h]

/-- Claim C4, amended: for every driver whose height is at most 255 (so
that the refresh loop terminates), `refresh` issues a single transport
write of exactly the frame `[vcom | WRITE_LINE_FLAG]` followed, for each
row i, by the line-address byte i+1, the row bytes and a 0x00 byte, and
one final 0x00 byte. -/
theorem refresh_writes_spec_frame (d : Driver) (wr : List Nat → Bool) (fuel : Nat)
    (h255 : d.height ≤ 255) (hlen : d.height ≤ d.buffer.length)
    (hfuel : d.height < fuel) :
    refresh d wr fuel =
      some ((if wr (specFrame d) then TxResult.ok else TxResult.transportErr),
        toggle_vcom d) :=
  refresh_complete d wr fuel h255 hlen hfuel

/-- Claim C4, witness: the spec's concrete instance.  On the
width=8/height=2 panel with rows `[0x00]` and `[0xFF]` and unset
polarity, the write succeeds against a transport that accepts only the
exact frame `[0x01, 0x01, 0x00, 0x00, 0x02, 0xFF, 0x00, 0x00]`. -/
theorem refresh_writes_spec_frame_witness :
    refresh exDriver (wrExpect [1, 1, 0, 0, 2, 255, 0, 0]) 3 =
      some (TxResult.ok, toggle_vcom exDriver) := by
  rw [refresh_writes_spec_frame exDriver (wrExpect [1, 1, 0, 0, 2, 255, 0, 0]) 3
    (by decide) (by decide) (by decide)]
  decide

/-- Claim C5, counterexample: on a height-2 panel, `refresh_line 2` is
accepted by the inclusive bounds check but the row access
`buffer[2]` is out of range — the call panics instead of building and
writing a frame, refuting "for every accepted line_num it builds and
writes the frame". -/
theorem refresh_line_at_height_panics :
    refresh_line (new 8 2) 2 wrOk = (TxResult.panicked, new 8 2) := by
  decide

/-- Claim C5, amended: `refresh_line` fails with an out-of-bounds error,
without attempting any write, exactly when `line_num > height`; for
`line_num < height` it builds and writes
`[vcom | WRITE_LINE_FLAG, line_num + 1] ++ row ++ [0, 0]`; for
`line_num = height` the check passes but the row access panics and
nothing is written. -/
theorem refresh_line_bounds_and_frame (d : Driver) (wr : List Nat → Bool)
    (line_num : Nat) (hlen : d.buffer.length = d.height) (h255 : d.height ≤ 255) :
    (d.height < line_num → ∀ wr', refresh_line d line_num wr' = (TxResult.boundsErr, d))
    ∧ (line_num < d.height →
        refresh_line d line_num wr =
          ((if wr ((d.vcom ||| SHARPMEM_CMD_WRITE_LINE) :: (line_num + 1)
                :: (d.buffer.getD line_num [] ++ [0, 0]))
            then TxResult.ok else TxResult.transportErr), d))
    ∧ (line_num = d.height → refresh_line d line_num wr = (TxResult.panicked, d)) := by
  refine ⟨?_, ?_, ?_⟩
  · intro h wr'
    unfold refresh_line
    rw [if_pos h]
  · intro h
    have hlt : line_num < d.buffer.length := by omega
    have hmod : (line_num + 1) % 256 = line_num + 1 := Nat.mod_eq_of_lt (by omega)
    unfold refresh_line
    rw [if_neg (by omega), List.getElem?_eq_getElem hlt, hmod]
    simp [List.getD_eq_getElem?_getD, List.getElem?_eq_getElem hlt]
  · intro h
    unfold refresh_line
    rw [if_neg (by omega), List.getElem?_eq_none (by omega)]

/-- Claim C5, witness: on a height-2 panel, `refresh_line 1` writes the
single-line frame and succeeds. -/
theorem refresh_line_bounds_and_frame_witness :
    refresh_line (new 8 2) 1 wrOk = (TxResult.ok, new 8 2) := by
  rw [(refresh_line_bounds_and_frame (new 8 2) wrOk 1 (by decide) (by decide)).2.1
    (by decide)]
  decide

/-- Claim C6, counterexample: for `width = 2048` (a multiple of 8) the
`u8` field `bytes_per_line = (width / 8) as u8` truncates 256 to 0, so
one `clear_buffer` call leaves row 0 with 0 bytes instead of
`width / 8 = 256`. -/
theorem clear_buffer_truncates_wide_rows :
    ((run wrOk (new 2048 8) [Op.clearBuffer]).buffer.getD 0 []).length ≠ 2048 / 8 := by
  decide

/-- Claim C6, amended: for every driver constructed with
`new(..., width, height)` where width and height are multiples of 8 and
`width < 2048` (so that `width / 8` survives the `u8` cast), every row
of the framebuffer has exactly `width / 8` bytes after construction and
after every sequence of calls. -/
theorem row_length_invariant (width height : Nat) (h8w : width % 8 = 0)
    (h8h : height % 8 = 0) (hw : width < 2048) (wr : List Nat → Bool)
    (ops : List Op) :
    ((run wr (new width height) ops).buffer.all
      fun row => row.length == width / 8) = true := by
  have hq : width / 8 < 256 := by omega
  have h := run_row_lengths wr ops (new width height) (width / 8)
    (by simp [new, Nat.mod_eq_of_lt hq])
    (by
      intro row hrow
      rw [List.eq_of_mem_replicate hrow, List.length_replicate])
  rw [List.all_eq_true]
  intro row hrow
  simpa using h row hrow

/-- Claim C6, witness: on a 16×8 panel every row still has 2 bytes after
a mixed call sequence. -/
theorem row_length_invariant_witness :
    ((run wrOk (new 16 8) demoOps).buffer.all
      fun row => row.length == 16 / 8) = true :=
  row_length_invariant 16 8 rfl rfl (by omega) wrOk demoOps

/-- Claim C7: `set_pixel` with `x ≥ width` or `y ≥ height` fails with an
out-of-bounds error and returns the driver — in particular the entire
framebuffer — unchanged. -/
theorem set_pixel_oob_no_mutation (d : Driver) (x y : Nat) (v : Bool)
    (h : x ≥ d.width ∨ y ≥ d.height) :
    set_pixel d x y v = (TxResult.boundsErr, d) := by
  unfold set_pixel
  rw [if_pos h]

/-- Claim C7, witness: `set_pixel(8, 0, _)` on an 8-pixel-wide panel. -/
theorem set_pixel_oob_no_mutation_witness :
    set_pixel (new 8 2) 8 0 true = (TxResult.boundsErr, new 8 2) :=
  set_pixel_oob_no_mutation (new 8 2) 8 0 true (Or.inl (by decide))

/-- Claim C8: `clear_display` writes the 2-byte frame built from the
pre-toggle polarity, toggles the polarity before the write is issued
(the resulting state is the same for every transport outcome), and does
not modify the framebuffer. -/
theorem clear_display_toggle_before_write (d : Driver) (wr : List Nat → Bool) :
    clear_display d wr =
      ((if wr [d.vcom ||| SHARPMEM_CMD_CLEAR_SCREEN, 0] then TxResult.ok
        else TxResult.transportErr), toggle_vcom d) ∧
      (clear_display d wr).2.buffer = d.buffer ∧
      (clear_display d wr).2.vcom = vcomToggle d.vcom ∧
      ∀ wr', (clear_display d wr').2 = (clear_display d wr).2 :=
  ⟨rfl, rfl, rfl, fun _ => rfl⟩

/-- Claim C9: after `clear_buffer` every row is `bytes_per_line` bytes
of 0xFF; the polarity is untouched (and the operation involves no
transport), and the call is idempotent. -/
theorem clear_buffer_resets_rows (d : Driver) :
    (clear_buffer d).buffer =
      List.replicate d.buffer.length (List.replicate d.bytes_per_line 255) ∧
      (clear_buffer d).vcom = d.vcom ∧
      clear_buffer (clear_buffer d) = clear_buffer d := by
  refine ⟨rfl, rfl, ?_⟩
  simp [clear_buffer]

/-- Claim C10: the refresh loop compares its 8-bit counter (wrapping
modulo 256) against the 16-bit height.  With `height ≤ 255` and enough
fuel it terminates, emitting the spec frame with one block per row; with
`height > 255` the guard never becomes false and no fuel bound makes
`refresh` return. -/
theorem refresh_loop_termination_dichotomy (d : Driver) (wr : List Nat → Bool)
    (hlen : d.buffer.length = d.height) :
    (∀ fuel, d.height ≤ 255 → d.height < fuel →
        refresh d wr fuel =
          some ((if wr (specFrame d) then TxResult.ok else TxResult.transportErr),
            toggle_vcom d))
    ∧ (255 < d.height → refreshDiverges d wr) := by
  constructor
  · intro fuel h255 hf
    exact refresh_complete d wr fuel h255 (by omega) hf
  · intro hh fuel
    have h := refreshLoop_none d.buffer d.height hh (by omega) fuel 0
      [d.vcom ||| SHARPMEM_CMD_WRITE_LINE] (by omega)
    simp only [refresh, h]

/-- Claim C10, witness: on a height-2 panel, fuel 3 completes the loop
and the transmission succeeds. -/
theorem refresh_loop_termination_dichotomy_witness :
    refresh (new 8 2) wrOk 3 = some (TxResult.ok, toggle_vcom (new 8 2)) := by
  rw [(refresh_loop_termination_dichotomy (new 8 2) wrOk (by decide)).1 3
    (by decide) (by decide)]
  decide

end SharpMem
